import Mathlib

/-!
Verification development for the jollofi external API's transaction
orchestration core (Go sources: the Sui blockchain client `SuiClient` and the
`GameService` layer).  Pure Lean embeddings of the Go functions are given,
with network responses (RPC results) passed in explicitly as values or
response functions, so every operation is a pure function of its inputs and
of the decoded responses the remote node would have produced.

Go dynamic values (`interface{}`) are modelled by `GoVal`; a failed Go type
assertion (`x.(string)` on a non-string) is modelled as the `panicked`
outcome.  Machine integers (`uint64`) are modelled by `Nat` with explicit
`< 2 ^ 64` bounds where overflow matters.
-/

/-- A decoded JSON / `interface{}` value as the Go code observes it:
a string, an object (`map[string]interface{}`), or anything else. -/
inductive GoVal where
  | str : String → GoVal
  | obj : List (String × GoVal) → GoVal
  | other : GoVal

/-- Lookup in a decoded JSON object (`m["key"]` on `map[string]interface{}`;
decoded JSON objects have unique keys, so first match is the map lookup). -/
def assocLookup (l : List (String × GoVal)) (k : String) : Option GoVal :=
  match l with
  | [] => none
  | (k1, v) :: rest => if k1 = k then some v else assocLookup rest k

/-- The digit character for `d < 10`, i.e. `'0' + d`. -/
def digitChar (d : Nat) : Char := Char.ofNat (48 + d)

/-- Decimal rendering accumulator: Go's `strconv.AppendUint(…, 10)` /
`fmt.Sprintf("%d", n)` div-mod-10 loop, most significant digit first. -/
def natToDecimalAux (n : Nat) (acc : List Char) : List Char :=
  if n < 10 then digitChar n :: acc
  else natToDecimalAux (n / 10) (digitChar (n % 10) :: acc)
termination_by n
decreasing_by exact Nat.div_lt_self (by omega) (by omega)

/-- Go's `fmt.Sprintf("%d", n)` for an unsigned integer: its decimal digits. -/
def natToDecimal (n : Nat) : String := String.mk (natToDecimalAux n [])

/-- Number of decimal digits produced for `n` (1 for `n < 10`). -/
def decLen (n : Nat) : Nat :=
  if n < 10 then 1
  else decLen (n / 10) + 1
termination_by n
decreasing_by exact Nat.div_lt_self (by omega) (by omega)

/-- Accumulating loop of Go's `strconv.ParseUint(s, 10, 64)`: consume decimal
digits left to right, failing on a non-digit character or when the
accumulated value would exceed `2 ^ 64 - 1`. -/
def parseUintCore (l : List Char) (acc : Nat) : Option Nat :=
  match l with
  | [] => some acc
  | c :: cs =>
    if c.isDigit then
      let v := acc * 10 + (c.toNat - 48)
      if v < 2 ^ 64 then parseUintCore cs v else none
    else none

/-- Go's `strconv.ParseUint(s, 10, 64)`: `none` models a returned error
(empty string, non-digit character, or overflow past `2 ^ 64 - 1`). -/
def parseUint64 (s : String) : Option Nat :=
  match s.data with
  | [] => none
  | l => parseUintCore l 0

/-- One entry of the decoded `suix_getCoins` response (`map[string]interface{}`
in Go): only the two keys the client reads are modelled.  `none` models a key
missing from the map (Go lookup then yields the nil interface value). -/
structure RawCoin where
  coinObjectId : Option GoVal
  balance : Option GoVal

/-- Structured transport / RPC-layer failure (Go wraps these as error strings
from `makeRPCCall` and the subsequent `json.Unmarshal`). -/
inductive RpcFailure where
  | transport : String → RpcFailure
  | rpcError : Int → String → RpcFailure
  | decodeError : String → RpcFailure

/-- The distinct error results of the `SuiClient` methods, one constructor per
`fmt.Errorf` site reachable in the embedded code. -/
inductive GoErr where
  | coinIdsRequired
  | stakeAmountZero
  | getCoinsFailed : RpcFailure → GoErr
  | noGasCoinAvailable
  | noSuiCoinsForGas
  | buildFailed : RpcFailure → GoErr
  | signFailed : String → GoErr
  | execFailed : RpcFailure → GoErr
  | transactionFailed : List (String × GoVal) → GoErr
  | insufficientCoins : Nat → Nat → Nat → GoErr

/-- Outcome of running a Go method that can also crash on a failed type
assertion: normal return, returned error, or runtime panic. -/
inductive GoOutcome (α : Type) where
  | ok : α → GoOutcome α
  | err : GoErr → GoOutcome α
  | panicked : GoOutcome α

/-- The inspectable part of `coin["coinObjectId"].(string)`: the string if the key
is present and string-valued, else `none` (the assertion would panic). -/
def idStr (c : RawCoin) : Option String :=
  match c.coinObjectId with
  | some (GoVal.str s) => some s
  | _ => none

/-- The inspectable part of `coin["balance"].(string)`. -/
def balStr (c : RawCoin) : Option String :=
  match c.balance with
  | some (GoVal.str s) => some s
  | _ => none

/-- The parsed `uint64` balance of a coin, when the balance is a string that
`strconv.ParseUint` accepts. -/
def parsedBalance (c : RawCoin) : Option Nat :=
  (balStr c).bind parseUint64

/-- A coin qualifies for payment selection at `requiredAmount` when its
balance string parses and the value meets the threshold. -/
def qualifies (requiredAmount : Nat) (c : RawCoin) : Bool :=
  match parsedBalance c with
  | some b => decide (requiredAmount ≤ b)
  | none => false

/-- The node side of one `suix_getCoins` page: coins starting at the cursor
index, at most `limit` of them, with the next cursor when more remain.
`wallet` is the full list of the caller's spendable coins of the requested
currency, in the node's iteration order. -/
def suixGetCoinsPage (wallet : List RawCoin) (cursorIdx : Nat) (limit : Nat) :
    List RawCoin × Option Nat :=
  ((wallet.drop cursorIdx).take limit,
   if cursorIdx + limit < wallet.length then some (cursorIdx + limit) else none)

/-- Go `SuiClient.GetCoins`: a single `suix_getCoins` call with a nil cursor and
a fixed limit of 10 — only the first page of the wallet is ever fetched. -/
def getCoinsFirstPage (wallet : List RawCoin) : List RawCoin :=
  (suixGetCoinsPage wallet 0 10).1

/-- Pagination loop of `SuiClient.GetAllCoins` from a cursor index, with the
page size 50 the Go code passes to `GetCoinsByType`. -/
def getAllCoinsFrom (wallet : List RawCoin) (cursorIdx : Nat) : List RawCoin :=
  match h : suixGetCoinsPage wallet cursorIdx 50 with
  | (page, some next) => page ++ getAllCoinsFrom wallet next
  | (page, none) => page
termination_by wallet.length - cursorIdx
decreasing_by
  simp only [suixGetCoinsPage, Prod.mk.injEq] at h
  obtain ⟨-, h2⟩ := h
  by_cases hc : cursorIdx + 50 < wallet.length
  · simp only [hc, if_true, Option.some.injEq] at h2
    omega
  · simp [hc] at h2

/-- Go `SuiClient.GetAllCoins`: follow `nextCursor` until the node reports no
further page. -/
def getAllCoins (wallet : List RawCoin) : List RawCoin :=
  getAllCoinsFrom wallet 0

/-- The gas-selection scan inlined in `ExternalStake` (and `MergeCoins`):
return the id of the first coin different from both excluded ids, `""` when
the scan exhausts (the Go variable keeps its zero value).  A coin whose
`coinObjectId` is missing or not a string makes the type assertion panic. -/
def gasLoop (coins : List RawCoin) (ex1 ex2 : String) : GoOutcome String :=
  match coins with
  | [] => GoOutcome.ok ""
  | c :: rest =>
    match idStr c with
    | none => GoOutcome.panicked
    | some id => if id ≠ ex1 ∧ id ≠ ex2 then GoOutcome.ok id else gasLoop rest ex1 ex2

/-- Gas-coin selection as `ExternalStake` performs it on a fetched coin list:
the scan, followed by the `gasCoin == ""` check that yields the
`no gas coin available` error. -/
def selectGasCoin (coins : List RawCoin) (ex1 ex2 : String) : GoOutcome String :=
  match gasLoop coins ex1 ex2 with
  | GoOutcome.ok id => if id = "" then GoOutcome.err GoErr.noGasCoinAvailable else GoOutcome.ok id
  | r => r

/-- The scan loop of `GetSufficientCoins`: collect ids of coins whose balance
string parses to at least `requiredAmount`, breaking once `count` ids are
collected.  A missing or non-string balance panics (failed type assertion);
a balance string that fails to parse is skipped by `continue`. -/
def sufficientLoop (coins : List RawCoin) (requiredAmount count : Nat)
    (acc : List String) : GoOutcome (List String) :=
  match coins with
  | [] => GoOutcome.ok acc
  | c :: rest =>
    match balStr c with
    | none => GoOutcome.panicked
    | some s =>
      match parseUint64 s with
      | none => sufficientLoop rest requiredAmount count acc
      | some b =>
        if requiredAmount ≤ b then
          match idStr c with
          | none => GoOutcome.panicked
          | some id =>
            let acc1 := acc ++ [id]
            if count ≤ acc1.length then GoOutcome.ok acc1
            else sufficientLoop rest requiredAmount count acc1
        else sufficientLoop rest requiredAmount count acc

/-- The selection part of `GetSufficientCoins` on an already fetched coin
list: scan, then fail with the `insufficient coins` error when fewer than
`count` ids were collected. -/
def selectSufficient (coins : List RawCoin) (requiredAmount count : Nat) :
    GoOutcome (List String) :=
  match sufficientLoop coins requiredAmount count [] with
  | GoOutcome.ok suitable =>
    if suitable.length < count then
      GoOutcome.err (GoErr.insufficientCoins count requiredAmount suitable.length)
    else GoOutcome.ok suitable
  | r => r

/-- Go `SuiClient.GetSufficientCoins` against a wallet state, on the success path
of the network fetch: selection runs over the single first page `GetCoins`
returns, never over later pages. -/
def getSufficientCoins (wallet : List RawCoin) (requiredAmount count : Nat) :
    GoOutcome (List String) :=
  selectSufficient (getCoinsFirstPage wallet) requiredAmount count

/-- The client's `Config` (package, module, pool ids). -/
structure Config where
  PackageID : String
  ModuleName : String
  PoolID : String

/-- The state of a `SuiClient` relevant here: its derived address, its config,
and its signing function.  `sign` abstracts `signTransaction` (base64 decode,
Ed25519 signing, Sui envelope re-encode); it errors exactly when the
transaction-bytes string is not valid base64. -/
structure SuiClientM where
  address : String
  config : Config
  sign : String → Except String String

/-- Go's `MoveCallRequest`: the call descriptor sent to `unsafe_moveCall`.
All arguments constructed by this client are strings, so `Arguments` is a
`List String`. -/
structure MoveCallRequest where
  Signer : String
  PackageObjectId : String
  Module : String
  Function : String
  TypeArguments : List String
  Arguments : List String
  Gas : String
  GasBudget : String

/-- One decoded `SuiEvent` of the execution response. -/
structure SuiEvent where
  type : String
  parsedJson : String

/-- The decoded `TransactionBlockResponse`: digest, the `effects` object
(`map[string]interface{}`), and the events list. -/
structure TransactionBlockResponse where
  digest : String
  effects : List (String × GoVal)
  events : List SuiEvent

/-- The effects-status inspection of `executeTransaction`: when
`effects["status"]` is present AND is an object AND its inner `"status"`
entry is not the string `"success"`, return that status object (the failure
witness); in every other case the check passes (`none`). -/
def checkEffectsStatus (effects : List (String × GoVal)) :
    Option (List (String × GoVal)) :=
  match assocLookup effects "status" with
  | some (GoVal.obj st) =>
    match assocLookup st "status" with
    | some (GoVal.str "success") => none
    | _ => some st
  | _ => none

/-- The successful result of `executeTransaction`: the digest, and whether
the expected event was found (when `false` the Go code only prints a
warning and still succeeds). -/
structure ExecOutcome where
  digest : String
  eventFound : Bool
deriving Repr

/-- Go `SuiClient.executeTransaction`: build unsigned bytes via `unsafe_moveCall`
(`build`), sign them, submit via `sui_executeTransactionBlock` (`run`,
a function of the bytes and the signature), then inspect the effects status
and scan the events for `package::module::expectedEventSuffix`. -/
def executeTransaction (cfg : Config) (moveCallReq : MoveCallRequest)
    (expectedEventSuffix : String)
    (build : MoveCallRequest → Except RpcFailure String)
    (sign : String → Except String String)
    (run : String → String → Except RpcFailure TransactionBlockResponse) :
    Except GoErr ExecOutcome :=
  match build moveCallReq with
  | Except.error e => Except.error (GoErr.buildFailed e)
  | Except.ok txBytes =>
    match sign txBytes with
    | Except.error m => Except.error (GoErr.signFailed m)
    | Except.ok signature =>
      match run txBytes signature with
      | Except.error e => Except.error (GoErr.execFailed e)
      | Except.ok txResult =>
        match checkEffectsStatus txResult.effects with
        | some st => Except.error (GoErr.transactionFailed st)
        | none =>
          let eventType := cfg.PackageID ++ "::" ++ cfg.ModuleName ++ "::" ++ expectedEventSuffix
          let eventFound := txResult.events.any (fun ev => ev.type == eventType)
          Except.ok { digest := txResult.digest, eventFound := eventFound }

/-- The part of `SuiClient.ExternalStake` before `executeTransaction`:
input validation, gas selection over the fetched first page of coins, and
construction of the `external_stake` call descriptor.  `coinsResp` is the
decoded outcome of the `GetCoins` network call. -/
def externalStakeCall (c : SuiClientM) (requesterCoinID accepterCoinID : String)
    (amount : Nat) (coinsResp : Except RpcFailure (List RawCoin)) :
    GoOutcome MoveCallRequest :=
  if requesterCoinID = "" ∨ accepterCoinID = "" then GoOutcome.err GoErr.coinIdsRequired
  else if amount = 0 then GoOutcome.err GoErr.stakeAmountZero
  else
    match coinsResp with
    | Except.error e => GoOutcome.err (GoErr.getCoinsFailed e)
    | Except.ok coins =>
      match selectGasCoin coins requesterCoinID accepterCoinID with
      | GoOutcome.ok gasCoin =>
        GoOutcome.ok
          { Signer := c.address
            PackageObjectId := c.config.PackageID
            Module := c.config.ModuleName
            Function := "external_stake"
            TypeArguments := ["0x2::sui::SUI"]
            Arguments := [c.config.PoolID, requesterCoinID, accepterCoinID, natToDecimal amount]
            Gas := gasCoin
            GasBudget := "10000000" }
      | GoOutcome.err e => GoOutcome.err e
      | GoOutcome.panicked => GoOutcome.panicked

/-- Go `SuiClient.ExternalStake`: the descriptor construction above followed by
`executeTransaction` with expected event `ExternalGameStaked`. -/
def externalStake (c : SuiClientM) (requesterCoinID accepterCoinID : String)
    (amount : Nat) (coinsResp : Except RpcFailure (List RawCoin))
    (build : MoveCallRequest → Except RpcFailure String)
    (run : String → String → Except RpcFailure TransactionBlockResponse) :
    GoOutcome ExecOutcome :=
  match externalStakeCall c requesterCoinID accepterCoinID amount coinsResp with
  | GoOutcome.ok m =>
    match executeTransaction c.config m "ExternalGameStaked" build c.sign run with
    | Except.ok r => GoOutcome.ok r
    | Except.error e => GoOutcome.err e
  | GoOutcome.err e => GoOutcome.err e
  | GoOutcome.panicked => GoOutcome.panicked

/-- Go `SuiClient.ExternalPayWinner`: NO input validation is performed.  The
method fetches coins, errors when the list is empty, takes `coins[0]` as gas
(panicking if its id is not a string), builds the `external_pay_winner`
descriptor, builds/signs/submits — and returns the digest with no effects
status inspection (the event scan only prints). -/
def externalPayWinner (c : SuiClientM)
    (requesterAddress accepterAddress : String)
    (requesterScore accepterScore stakeAmount : Nat)
    (coinsResp : Except RpcFailure (List RawCoin))
    (build : MoveCallRequest → Except RpcFailure String)
    (run : String → String → Except RpcFailure TransactionBlockResponse) :
    GoOutcome String :=
  match coinsResp with
  | Except.error e => GoOutcome.err (GoErr.getCoinsFailed e)
  | Except.ok coins =>
    match coins with
    | [] => GoOutcome.err GoErr.noSuiCoinsForGas
    | c0 :: _ =>
      match idStr c0 with
      | none => GoOutcome.panicked
      | some gasId =>
        let moveCallReq : MoveCallRequest :=
          { Signer := c.address
            PackageObjectId := c.config.PackageID
            Module := c.config.ModuleName
            Function := "external_pay_winner"
            TypeArguments := []
            Arguments := [c.config.PoolID, requesterAddress, accepterAddress,
                          natToDecimal requesterScore, natToDecimal accepterScore,
                          natToDecimal stakeAmount]
            Gas := gasId
            GasBudget := "10000000" }
        match build moveCallReq with
        | Except.error e => GoOutcome.err (GoErr.buildFailed e)
        | Except.ok txBytes =>
          match c.sign txBytes with
          | Except.error m => GoOutcome.err (GoErr.signFailed m)
          | Except.ok signature =>
            match run txBytes signature with
            | Except.error e => GoOutcome.err (GoErr.execFailed e)
            | Except.ok txResult => GoOutcome.ok txResult.digest

/-- Go `request.StakeRequest`. -/
structure StakeRequest where
  RequesterCoinID : String
  AccepterCoinID : String
  RequesterAddress : String
  AccepterAddress : String
  StakeAmount : Nat

/-- Go `request.PayWinnerRequest`. -/
structure PayWinnerRequest where
  RequesterAddress : String
  AccepterAddress : String
  RequesterScore : Nat
  AccepterScore : Nat
  StakeAmount : Nat

/-- Go `response.StakeResponse` (JSON-rendered fields only). -/
structure StakeResponse where
  Success : Bool
  TransactionDigest : String := ""
  Message : String := ""
  Error : String := ""

/-- Go `response.PayWinnerResponse`. -/
structure PayWinnerResponse where
  Success : Bool
  TransactionDigest : String := ""
  Message : String := ""
  Error : String := ""

/-- Go `models.Stake`, the local mirror record the service inserts into the
`stakes` collection (the `ID` bson field is omitted: it is empty at insert). -/
structure Stake where
  RequesterCoinID : String
  AccepterCoinID : String
  RequesterAddress : String
  AccepterAddress : String
  StakeAmount : Nat
  Status : String
  Timestamp : Int
  TransactionHash : String

/-- Go `models.PayWinner`, the record inserted into the `pay_winners`
collection; fields the service leaves at their Go zero value keep it here. -/
structure PayWinnerRecord where
  RequesterAddress : String
  AccepterAddress : String
  RequesterScore : Nat
  AccepterScore : Nat
  Winner : String := ""
  PrizeAmount : Nat := 0
  APIFee : Nat := 0
  EscrowFee : Nat := 0
  TotalStake : Nat := 0
  Timestamp : Int
  TransactionHash : String
  StakeAmount : Nat

/-- The Go `error` second return value of the service methods. -/
inductive ServiceErr where
  | invalidStakeRequest
  | addressesRequired
  | invalidPayWinnerRequest
  | chain : GoErr → ServiceErr

/-- Observable outcome of one `GameService.StakeGame` call: the response, the
returned Go error, whether the chain client was invoked, and the record
passed to `InsertOne` when persistence was attempted. -/
structure StakeGameResult where
  resp : StakeResponse
  errReturned : Option ServiceErr
  chainCalled : Bool
  insertAttempt : Option Stake

/-- Observable outcome of one `GameService.PayWinner` call. -/
structure PayWinnerResult where
  resp : PayWinnerResponse
  errReturned : Option ServiceErr
  chainCalled : Bool
  insertAttempt : Option PayWinnerRecord

/-- Go `GameService.StakeGame`: local validation, then the chain call
(`chainResult` is the outcome `suiClient.ExternalStake` produced), then a
best-effort `InsertOne` whose outcome (`insertResult`) is logged but never
alters the returned response or error.  `now` is `time.Now().Unix()`. -/
def stakeGame (req : StakeRequest) (now : Int)
    (chainResult : Except GoErr String) (insertResult : Except String Unit) :
    StakeGameResult :=
  if req.RequesterCoinID = "" ∨ req.AccepterCoinID = "" ∨ req.StakeAmount = 0 then
    { resp := { Success := false, Error := "Invalid stake request: missing required fields" }
      errReturned := some ServiceErr.invalidStakeRequest
      chainCalled := false
      insertAttempt := none }
  else if req.RequesterAddress = "" ∨ req.AccepterAddress = "" then
    { resp := { Success := false, Error := "Invalid stake request: addresses are required" }
      errReturned := some ServiceErr.addressesRequired
      chainCalled := false
      insertAttempt := none }
  else
    match chainResult with
    | Except.error e =>
      { resp := { Success := false, Error := "Blockchain transaction failed" }
        errReturned := some (ServiceErr.chain e)
        chainCalled := true
        insertAttempt := none }
    | Except.ok txDigest =>
      let stake : Stake :=
        { RequesterCoinID := req.RequesterCoinID
          AccepterCoinID := req.AccepterCoinID
          RequesterAddress := req.RequesterAddress
          AccepterAddress := req.AccepterAddress
          StakeAmount := req.StakeAmount
          Status := "completed"
          Timestamp := now
          TransactionHash := txDigest }
      let _ : Except String Unit := insertResult
      { resp := { Success := true
                  TransactionDigest := txDigest
                  Message := "Stake successful. 10% fee deducted from each player by blockchain." }
        errReturned := none
        chainCalled := true
        insertAttempt := some stake }

/-- Go `GameService.PayWinner`: single local validation check, chain call, then
best-effort persistence into `pay_winners`, never affecting the response. -/
def payWinner (req : PayWinnerRequest) (now : Int)
    (chainResult : Except GoErr String) (insertResult : Except String Unit) :
    PayWinnerResult :=
  if req.RequesterAddress = "" ∨ req.AccepterAddress = "" ∨ req.StakeAmount = 0 then
    { resp := { Success := false, Error := "Invalid pay winner request: missing required fields" }
      errReturned := some ServiceErr.invalidPayWinnerRequest
      chainCalled := false
      insertAttempt := none }
  else
    match chainResult with
    | Except.error e =>
      { resp := { Success := false, Error := "Blockchain transaction failed" }
        errReturned := some (ServiceErr.chain e)
        chainCalled := true
        insertAttempt := none }
    | Except.ok txDigest =>
      let rec1 : PayWinnerRecord :=
        { RequesterAddress := req.RequesterAddress
          AccepterAddress := req.AccepterAddress
          RequesterScore := req.RequesterScore
          AccepterScore := req.AccepterScore
          Timestamp := now
          TransactionHash := txDigest
          StakeAmount := req.StakeAmount }
      let _ : Except String Unit := insertResult
      { resp := { Success := true
                  TransactionDigest := txDigest
                  Message := "Winner payment processed by blockchain with all fees calculated automatically." }
        errReturned := none
        chainCalled := true
        insertAttempt := some rec1 }

/-- Whether a fetched coin passes the gas-exclusion test of the inlined scan
(using the coin id the Go type assertion would observe). -/
def notExcluded (ex1 ex2 : String) (c : RawCoin) : Bool :=
  decide ((idStr c).getD "" ≠ ex1 ∧ (idStr c).getD "" ≠ ex2)

/-- A fetched coin as the selection code can consume it without a panicking
type assertion: both observed fields are strings. -/
def wfCoin (c : RawCoin) : Prop :=
  (∃ s, balStr c = some s) ∧ (∃ s, idStr c = some s)

/-- The ids of the qualifying coins of a fetched list, in list order: those
whose balance string parses to at least `requiredAmount`. -/
def qualIds (requiredAmount : Nat) (coins : List RawCoin) : List String :=
  (coins.filter (qualifies requiredAmount)).map (fun c => (idStr c).getD "")

/-- Scenario coin: id `0xc1`, balance 500. -/
def coinC1 : RawCoin := { coinObjectId := some (GoVal.str "0xc1"), balance := some (GoVal.str "500") }

/-- Scenario coin: id `0xc2`, balance 300. -/
def coinC2 : RawCoin := { coinObjectId := some (GoVal.str "0xc2"), balance := some (GoVal.str "300") }

/-- Scenario coin: id `0xc3`, balance 200. -/
def coinC3 : RawCoin := { coinObjectId := some (GoVal.str "0xc3"), balance := some (GoVal.str "200") }

/-- A coin whose `balance` key is missing from the decoded map. -/
def noBalanceCoin : RawCoin := { coinObjectId := some (GoVal.str "0xc1"), balance := none }

/-- A coin whose balance string does not parse as a decimal `uint64`. -/
def textBalanceCoin : RawCoin := { coinObjectId := some (GoVal.str "0xtext"), balance := some (GoVal.str "abc") }

/-- A wallet of eleven coins: ten coins of balance 1 followed by one coin of
balance 500 — the qualifying coin sits beyond the first page of 10. -/
def elevenCoinWallet : List RawCoin :=
  (List.range 10).map (fun i =>
    { coinObjectId := some (GoVal.str ("0xsmall" ++ natToDecimal i)),
      balance := some (GoVal.str "1") }) ++
  [{ coinObjectId := some (GoVal.str "0xbig"), balance := some (GoVal.str "500") }]

/-- A client with concrete configuration, whose signing always succeeds. -/
def cexClient : SuiClientM :=
  { address := "0xapiaddr"
    config := { PackageID := "0xpkg", ModuleName := "jollfi_wallet", PoolID := "0xpool" }
    sign := fun _ => Except.ok "AJsig" }

/-- An `unsafe_moveCall` oracle that always returns the same tx bytes. -/
def cexBuild : MoveCallRequest → Except RpcFailure String := fun _ => Except.ok "dHhCeXRlcw=="

/-- Effects reporting an explicit non-success status. -/
def cexFailEffects : List (String × GoVal) :=
  [("status", GoVal.obj [("status", GoVal.str "failure")])]

/-- A decoded execution result carrying digest `d1` and a `failure` effects
status. -/
def txFailD1 : TransactionBlockResponse :=
  { digest := "d1", effects := cexFailEffects, events := [] }

/-- An execution oracle whose decoded result is `txFailD1`. -/
def cexRunFail : String → String → Except RpcFailure TransactionBlockResponse :=
  fun _ _ => Except.ok txFailD1

/-- A decoded execution result with digest `d3`, an explicit `success` status
and no events at all. -/
def txSuccessNoEvents : TransactionBlockResponse :=
  { digest := "d3", effects := [("status", GoVal.obj [("status", GoVal.str "success")])],
    events := [] }

/-- An execution oracle whose decoded result is `txSuccessNoEvents`. -/
def cexRunSuccess : String → String → Except RpcFailure TransactionBlockResponse :=
  fun _ _ => Except.ok txSuccessNoEvents

/-- The `external_stake` descriptor `ExternalStake` builds for the inputs
`("0xc1", "0xc2", 100)` with gas coin `0xc3` under `cexClient`. -/
def stakeDescriptor100 : MoveCallRequest :=
  { Signer := "0xapiaddr"
    PackageObjectId := "0xpkg"
    Module := "jollfi_wallet"
    Function := "external_stake"
    TypeArguments := ["0x2::sui::SUI"]
    Arguments := ["0xpool", "0xc1", "0xc2", natToDecimal 100]
    Gas := "0xc3"
    GasBudget := "10000000" }

/-- An execution oracle whose decoded result carries digest `d2`, empty
effects and no events. -/
def cexRunPlain : String → String → Except RpcFailure TransactionBlockResponse :=
  fun _ _ => Except.ok { digest := "d2", effects := [], events := [] }

theorem digitChar_isDigit {d : Nat} (h : d < 10) : (digitChar d).isDigit = true := by
  interval_cases d <;> decide

theorem digitChar_toNat {d : Nat} (h : d < 10) : (digitChar d).toNat = 48 + d := by
  interval_cases d <;> decide

theorem decLen_ge_ten {n : Nat} (h : ¬ n < 10) : decLen n = decLen (n / 10) + 1 := by
  rw [decLen]
  simp [h]

theorem decLen_lt_ten {n : Nat} (h : n < 10) : decLen n = 1 := by
  rw [decLen]
  simp [h]

theorem parseUintCore_natToDecimalAux (n : Nat) :
    ∀ (acc : Nat) (l : List Char),
      acc * 10 ^ decLen n + n < 2 ^ 64 →
      parseUintCore (natToDecimalAux n l) acc = parseUintCore l (acc * 10 ^ decLen n + n) := by
  induction n using Nat.strong_induction_on with
  | _ n ih =>
    intro acc l h
    by_cases hn : n < 10
    · rw [natToDecimalAux]
      simp only [hn, if_true]
      rw [decLen_lt_ten hn] at h ⊢
      simp only [pow_one] at h ⊢
      rw [parseUintCore]
      simp only [digitChar_isDigit hn, if_true, digitChar_toNat hn]
      have hv : acc * 10 + (48 + n - 48) = acc * 10 + n := by omega
      rw [hv]
      simp only [h, if_true]
    · rw [natToDecimalAux]
      simp only [hn, if_false]
      have hdiv : n / 10 < n := Nat.div_lt_self (by omega) (by omega)
      rw [decLen_ge_ten hn] at h
      have hid : (acc * 10 ^ decLen (n / 10) + n / 10) * 10 + n % 10 =
          acc * 10 ^ (decLen (n / 10) + 1) + n := by
        have hm := Nat.div_add_mod n 10
        ring_nf
        omega
      have haux : ∀ x r : Nat, x ≤ x * 10 + r := by intro x r; omega
      have hle : acc * 10 ^ decLen (n / 10) + n / 10 < 2 ^ 64 :=
        lt_of_le_of_lt (haux _ _) (by rw [hid]; exact h)
      rw [ih (n / 10) hdiv acc (digitChar (n % 10) :: l) hle]
      rw [parseUintCore]
      have hm10 : n % 10 < 10 := Nat.mod_lt _ (by omega)
      simp only [digitChar_isDigit hm10, if_true, digitChar_toNat hm10]
      have hv : (acc * 10 ^ decLen (n / 10) + n / 10) * 10 + (48 + n % 10 - 48) =
          acc * 10 ^ (decLen (n / 10) + 1) + n := by omega
      rw [hv]
      rw [decLen_ge_ten hn]
      have hlt : acc * 10 ^ (decLen (n / 10) + 1) + n < 2 ^ 64 := h
      simp only [hlt, if_true]

theorem natToDecimalAux_ne_nil (n : Nat) : ∀ (l : List Char), natToDecimalAux n l ≠ [] := by
  induction n using Nat.strong_induction_on with
  | _ n ih =>
    intro l
    rw [natToDecimalAux]
    by_cases hn : n < 10
    · simp [hn]
    · simp only [hn, if_false]
      exact ih (n / 10) (Nat.div_lt_self (by omega) (by omega)) _

/-- Round trip: the decimal rendering of a `uint64` value parses back to the
original value through `strconv.ParseUint(…, 10, 64)`. -/
theorem parseUint64_natToDecimal (n : Nat) (h : n < 2 ^ 64) :
    parseUint64 (natToDecimal n) = some n := by
  have hmain := parseUintCore_natToDecimalAux n 0 []
  simp only [Nat.zero_mul, Nat.zero_add] at hmain
  have hres := hmain h
  rw [parseUint64, natToDecimal]
  have hne := natToDecimalAux_ne_nil n []
  cases hcase : natToDecimalAux n [] with
  | nil => exact absurd hcase hne
  | cons c cs =>
    simp only [String.data]
    rw [hcase] at hres
    rw [parseUintCore] at hres ⊢
    exact hres

/-- Unfolding of the `GetAllCoins` pagination loop in terms of the page
the node serves at the current cursor. -/
theorem getAllCoinsFrom_unfold (wallet : List RawCoin) (idx : Nat) :
    getAllCoinsFrom wallet idx =
      if idx + 50 < wallet.length then
        (wallet.drop idx).take 50 ++ getAllCoinsFrom wallet (idx + 50)
      else (wallet.drop idx).take 50 := by
  rw [getAllCoinsFrom]
  by_cases hc : idx + 50 < wallet.length
  · rw [if_pos hc]
    split
    next page nxt heq =>
      simp only [suixGetCoinsPage, hc, if_true, Prod.mk.injEq, Option.some.injEq] at heq
      rw [← heq.1, ← heq.2]
    next page heq =>
      simp only [suixGetCoinsPage, hc, if_true, Prod.mk.injEq] at heq
      exact absurd heq.2 (by simp)
  · rw [if_neg hc]
    split
    next page nxt heq =>
      simp only [suixGetCoinsPage, hc, if_false, Prod.mk.injEq] at heq
      exact absurd heq.2 (by simp)
    next page heq =>
      simp only [suixGetCoinsPage, hc, if_false, Prod.mk.injEq] at heq
      rw [← heq.1]

/-- The loop of `GetAllCoins` really does follow the cursor through every page: starting
at index `idx` it returns every coin from `idx` on. -/
theorem getAllCoinsFrom_eq_drop (wallet : List RawCoin) :
    ∀ (k idx : Nat), wallet.length - idx ≤ k →
      getAllCoinsFrom wallet idx = wallet.drop idx := by
  intro k
  induction k with
  | zero =>
    intro idx hk
    have hc : ¬ idx + 50 < wallet.length := by omega
    rw [getAllCoinsFrom_unfold, if_neg hc]
    exact List.take_of_length_le (by rw [List.length_drop]; omega)
  | succ k ih =>
    intro idx hk
    rw [getAllCoinsFrom_unfold]
    by_cases hc : idx + 50 < wallet.length
    · rw [if_pos hc]
      rw [ih (idx + 50) (by omega)]
      have hdd : wallet.drop (idx + 50) = (wallet.drop idx).drop 50 := by
        rw [List.drop_drop]
      rw [hdd]
      exact List.take_append_drop 50 (wallet.drop idx)
    · rw [if_neg hc]
      exact List.take_of_length_le (by rw [List.length_drop]; omega)

/-- Go `GetAllCoins` returns the caller's full wallet. -/
theorem getAllCoins_eq (wallet : List RawCoin) : getAllCoins wallet = wallet := by
  have h := getAllCoinsFrom_eq_drop wallet wallet.length 0 (by omega)
  simpa [getAllCoins] using h

theorem gasLoop_spec (ex1 ex2 : String) :
    ∀ (coins : List RawCoin), (∀ c ∈ coins, ∃ s, idStr c = some s) →
      gasLoop coins ex1 ex2 =
        match coins.find? (notExcluded ex1 ex2) with
        | some c => GoOutcome.ok ((idStr c).getD "")
        | none => GoOutcome.ok "" := by
  intro coins
  induction coins with
  | nil => intro _; rfl
  | cons c rest ih =>
    intro hwf
    obtain ⟨s, hs⟩ := hwf c (by simp)
    rw [gasLoop, hs]
    dsimp only
    by_cases hne : notExcluded ex1 ex2 c = true
    · have hcond : s ≠ ex1 ∧ s ≠ ex2 := by
        have := of_decide_eq_true hne
        rwa [hs] at this
      rw [List.find?_cons_of_pos _ hne, if_pos hcond]
      simp [hs]
    · have hcond : ¬ (s ≠ ex1 ∧ s ≠ ex2) := by
        intro hco
        apply hne
        apply decide_eq_true
        rwa [hs]
      rw [List.find?_cons_of_neg _ (by simpa using hne), if_neg hcond]
      exact ih (fun c0 hc0 => hwf c0 (by simp [hc0]))

theorem selectGasCoin_spec (coins : List RawCoin) (ex1 ex2 : String)
    (hwf : ∀ c ∈ coins, ∃ s, idStr c = some s ∧ s ≠ "") :
    selectGasCoin coins ex1 ex2 =
      match coins.find? (notExcluded ex1 ex2) with
      | some c => GoOutcome.ok ((idStr c).getD "")
      | none => GoOutcome.err GoErr.noGasCoinAvailable := by
  have hids : ∀ c ∈ coins, ∃ s, idStr c = some s :=
    fun c hc => ⟨(hwf c hc).choose, (hwf c hc).choose_spec.1⟩
  rw [selectGasCoin, gasLoop_spec ex1 ex2 coins hids]
  cases hfind : coins.find? (notExcluded ex1 ex2) with
  | none => simp
  | some c =>
    have hmem : c ∈ coins := List.mem_of_find?_eq_some hfind
    obtain ⟨s, hs, hsne⟩ := hwf c hmem
    simp only [hs, Option.getD_some]
    simp [hsne]

theorem sufficientLoop_spec (requiredAmount count : Nat) :
    ∀ (coins : List RawCoin) (acc : List String),
      (∀ c ∈ coins, wfCoin c) → acc.length < count →
      sufficientLoop coins requiredAmount count acc =
        GoOutcome.ok (acc ++ (qualIds requiredAmount coins).take (count - acc.length)) := by
  intro coins
  induction coins with
  | nil =>
    intro acc _ _
    simp [sufficientLoop, qualIds]
  | cons c rest ih =>
    intro acc hwf hacc
    have hrest : ∀ c0 ∈ rest, wfCoin c0 := fun c0 hc0 => hwf c0 (by simp [hc0])
    obtain ⟨⟨bs, hbs⟩, ⟨istr, his⟩⟩ := hwf c (by simp)
    rw [sufficientLoop, hbs]
    dsimp only
    cases hp : parseUint64 bs with
    | none =>
      dsimp only
      have hq : qualifies requiredAmount c = false := by
        simp [qualifies, parsedBalance, hbs, hp]
      rw [ih acc hrest hacc]
      simp [qualIds, List.filter_cons, hq]
    | some b =>
      dsimp only
      by_cases hge : requiredAmount ≤ b
      · rw [if_pos hge, his]
        dsimp only
        have hq : qualifies requiredAmount c = true := by
          simp [qualifies, parsedBalance, hbs, hp, hge]
        have hqi : qualIds requiredAmount (c :: rest) = istr :: qualIds requiredAmount rest := by
          simp [qualIds, List.filter_cons, hq, his]
        by_cases hbreak : count ≤ (acc ++ [istr]).length
        · rw [if_pos hbreak]
          have hcm : count - acc.length = 1 := by
            simp only [List.length_append, List.length_singleton] at hbreak
            omega
          rw [hqi, hcm, List.take_succ_cons, List.take_zero]
        · rw [if_neg hbreak]
          have hlt2 : (acc ++ [istr]).length < count := by omega
          rw [ih (acc ++ [istr]) hrest hlt2]
          have hcm : count - acc.length = (count - (acc ++ [istr]).length) + 1 := by
            simp only [List.length_append, List.length_singleton] at hbreak ⊢
            omega
          rw [hqi, hcm, List.take_succ_cons]
          simp
      · rw [if_neg hge]
        have hq : qualifies requiredAmount c = false := by
          simp [qualifies, parsedBalance, hbs, hp]
          omega
        rw [ih acc hrest hacc]
        simp [qualIds, List.filter_cons, hq]

/-- Full characterization of the selection part of `GetSufficientCoins` on a
fetched coin list, for a positive requested `count` and well-formed coins. -/
theorem selectSufficient_spec (coins : List RawCoin) (requiredAmount count : Nat)
    (hwf : ∀ c ∈ coins, wfCoin c) (hcount : 0 < count) :
    selectSufficient coins requiredAmount count =
      if count ≤ (qualIds requiredAmount coins).length then
        GoOutcome.ok ((qualIds requiredAmount coins).take count)
      else
        GoOutcome.err (GoErr.insufficientCoins count requiredAmount
          (qualIds requiredAmount coins).length) := by
  rw [selectSufficient,
    sufficientLoop_spec requiredAmount count coins [] hwf (by simpa using hcount)]
  dsimp only
  simp only [List.nil_append, List.length_nil, Nat.sub_zero]
  by_cases hq : count ≤ (qualIds requiredAmount coins).length
  · rw [if_pos hq]
    have hlen : ((qualIds requiredAmount coins).take count).length = count := by
      rw [List.length_take]
      omega
    rw [if_neg (by omega : ¬ ((qualIds requiredAmount coins).take count).length < count)]
  · rw [if_neg hq]
    have hall : (qualIds requiredAmount coins).take count = qualIds requiredAmount coins :=
      List.take_of_length_le (by omega)
    rw [hall, if_pos (by omega)]

theorem sufficientLoop_skips_unparseable (requiredAmount count : Nat) :
    ∀ (coins : List RawCoin), (∀ c ∈ coins, ∃ s, balStr c = some s) →
      ∀ (acc : List String),
      sufficientLoop coins requiredAmount count acc =
        sufficientLoop (coins.filter (fun c => (parsedBalance c).isSome))
          requiredAmount count acc := by
  intro coins
  induction coins with
  | nil => intro _ acc; rfl
  | cons c rest ih =>
    intro hwf acc
    have hrest : ∀ c0 ∈ rest, ∃ s, balStr c0 = some s :=
      fun c0 hc0 => hwf c0 (List.mem_cons_of_mem _ hc0)
    obtain ⟨bs, hbs⟩ := hwf c (by simp)
    cases hp : parseUint64 bs with
    | none =>
      have hfc : ¬ ((parsedBalance c).isSome = true) := by
        simp [parsedBalance, hbs, hp]
      rw [List.filter_cons_of_neg (by simpa using hfc)]
      rw [sufficientLoop, hbs]
      dsimp only
      rw [hp]
      dsimp only
      exact ih hrest acc
    | some b =>
      have hfc : ((parsedBalance c).isSome) = true := by
        simp [parsedBalance, hbs, hp]
      have hstep : List.filter (fun c0 => (parsedBalance c0).isSome) (c :: rest) =
          c :: List.filter (fun c0 => (parsedBalance c0).isSome) rest := by
        simp [List.filter_cons, parsedBalance, hbs, hp]
      rw [hstep]
      simp only [sufficientLoop]
      rw [hbs]
      dsimp only
      rw [hp]
      dsimp only
      by_cases hge : requiredAmount ≤ b
      · rw [if_pos hge, if_pos hge]
        cases his : idStr c with
        | none => rfl
        | some id =>
          dsimp only
          by_cases hbreak : count ≤ (acc ++ [id]).length
          · rw [if_pos hbreak, if_pos hbreak]
          · rw [if_neg hbreak, if_neg hbreak]
            exact ih hrest (acc ++ [id])
      · rw [if_neg hge, if_neg hge]
        exact ih hrest acc

/-- Unfolding of `StakeGame` on the success path of the chain call. -/
theorem stakeGame_ok_unfold (req : StakeRequest) (now : Int) (d : String)
    (ins : Except String Unit)
    (h1 : ¬ (req.RequesterCoinID = "" ∨ req.AccepterCoinID = "" ∨ req.StakeAmount = 0))
    (h2 : ¬ (req.RequesterAddress = "" ∨ req.AccepterAddress = "")) :
    stakeGame req now (Except.ok d) ins =
      { resp := { Success := true
                  TransactionDigest := d
                  Message := "Stake successful. 10% fee deducted from each player by blockchain." }
        errReturned := none
        chainCalled := true
        insertAttempt := some
          { RequesterCoinID := req.RequesterCoinID
            AccepterCoinID := req.AccepterCoinID
            RequesterAddress := req.RequesterAddress
            AccepterAddress := req.AccepterAddress
            StakeAmount := req.StakeAmount
            Status := "completed"
            Timestamp := now
            TransactionHash := d } } := by
  rw [stakeGame.eq_def, if_neg h1, if_neg h2]

/-- Unfolding of `StakeGame` on the failure path of the chain call. -/
theorem stakeGame_err_unfold (req : StakeRequest) (now : Int) (e : GoErr)
    (ins : Except String Unit)
    (h1 : ¬ (req.RequesterCoinID = "" ∨ req.AccepterCoinID = "" ∨ req.StakeAmount = 0))
    (h2 : ¬ (req.RequesterAddress = "" ∨ req.AccepterAddress = "")) :
    stakeGame req now (Except.error e) ins =
      { resp := { Success := false, Error := "Blockchain transaction failed" }
        errReturned := some (ServiceErr.chain e)
        chainCalled := true
        insertAttempt := none } := by
  rw [stakeGame.eq_def, if_neg h1, if_neg h2]

/-- Unfolding of the service `PayWinner` on the success path. -/
theorem payWinner_ok_unfold (req : PayWinnerRequest) (now : Int) (d : String)
    (ins : Except String Unit)
    (h1 : ¬ (req.RequesterAddress = "" ∨ req.AccepterAddress = "" ∨ req.StakeAmount = 0)) :
    payWinner req now (Except.ok d) ins =
      { resp := { Success := true
                  TransactionDigest := d
                  Message := "Winner payment processed by blockchain with all fees calculated automatically." }
        errReturned := none
        chainCalled := true
        insertAttempt := some
          { RequesterAddress := req.RequesterAddress
            AccepterAddress := req.AccepterAddress
            RequesterScore := req.RequesterScore
            AccepterScore := req.AccepterScore
            Timestamp := now
            TransactionHash := d
            StakeAmount := req.StakeAmount } } := by
  rw [payWinner.eq_def, if_neg h1]

/-- Unfolding of the service `PayWinner` on the failure path. -/
theorem payWinner_err_unfold (req : PayWinnerRequest) (now : Int) (e : GoErr)
    (ins : Except String Unit)
    (h1 : ¬ (req.RequesterAddress = "" ∨ req.AccepterAddress = "" ∨ req.StakeAmount = 0)) :
    payWinner req now (Except.error e) ins =
      { resp := { Success := false, Error := "Blockchain transaction failed" }
        errReturned := some (ServiceErr.chain e)
        chainCalled := true
        insertAttempt := none } := by
  rw [payWinner.eq_def, if_neg h1]

/-- C5: for every Game Service request (StakeGame or PayWinner) in which the
chain operation succeeds with a digest but the local record insert fails, the
service still returns a success response carrying that digest, returns no
error, and the response is identical to the one returned when persistence
succeeds — the persistence failure never changes the returned result. -/
theorem service_success_despite_persistence_failure :
    (∀ (req : StakeRequest) (now : Int) (d failMsg : String),
      req.RequesterCoinID ≠ "" → req.AccepterCoinID ≠ "" → req.StakeAmount ≠ 0 →
      req.RequesterAddress ≠ "" → req.AccepterAddress ≠ "" →
      (stakeGame req now (Except.ok d) (Except.error failMsg)).resp.Success = true ∧
      (stakeGame req now (Except.ok d) (Except.error failMsg)).resp.TransactionDigest = d ∧
      (stakeGame req now (Except.ok d) (Except.error failMsg)).errReturned = none ∧
      ∀ insertOther,
        (stakeGame req now (Except.ok d) (Except.error failMsg)).resp =
          (stakeGame req now (Except.ok d) insertOther).resp) ∧
    (∀ (req : PayWinnerRequest) (now : Int) (d failMsg : String),
      req.RequesterAddress ≠ "" → req.AccepterAddress ≠ "" → req.StakeAmount ≠ 0 →
      (payWinner req now (Except.ok d) (Except.error failMsg)).resp.Success = true ∧
      (payWinner req now (Except.ok d) (Except.error failMsg)).resp.TransactionDigest = d ∧
      (payWinner req now (Except.ok d) (Except.error failMsg)).errReturned = none ∧
      ∀ insertOther,
        (payWinner req now (Except.ok d) (Except.error failMsg)).resp =
          (payWinner req now (Except.ok d) insertOther).resp) := by
  constructor
  · intro req now d failMsg h1 h2 h3 h4 h5
    have hg1 : ¬ (req.RequesterCoinID = "" ∨ req.AccepterCoinID = "" ∨ req.StakeAmount = 0) :=
      not_or.mpr ⟨h1, not_or.mpr ⟨h2, h3⟩⟩
    have hg2 : ¬ (req.RequesterAddress = "" ∨ req.AccepterAddress = "") :=
      not_or.mpr ⟨h4, h5⟩
    refine ⟨?_, ?_, ?_, fun insertOther => ?_⟩ <;>
      rw [stakeGame_ok_unfold req now d _ hg1 hg2]
    rw [stakeGame_ok_unfold req now d insertOther hg1 hg2]
  · intro req now d failMsg h1 h2 h3
    have hg1 : ¬ (req.RequesterAddress = "" ∨ req.AccepterAddress = "" ∨ req.StakeAmount = 0) :=
      not_or.mpr ⟨h1, not_or.mpr ⟨h2, h3⟩⟩
    refine ⟨?_, ?_, ?_, fun insertOther => ?_⟩ <;>
      rw [payWinner_ok_unfold req now d _ hg1]
    rw [payWinner_ok_unfold req now d insertOther hg1]

/-- C5 witness at a concrete request whose insert fails. -/
theorem service_success_despite_persistence_failure_witness :
    (stakeGame { RequesterCoinID := "0xc1", AccepterCoinID := "0xc2",
                 RequesterAddress := "0xra", AccepterAddress := "0xaa", StakeAmount := 100 }
       7 (Except.ok "digest1") (Except.error "mongo down")).resp.Success = true ∧
    (payWinner { RequesterAddress := "0xra", AccepterAddress := "0xaa",
                 RequesterScore := 10, AccepterScore := 5, StakeAmount := 100 }
       7 (Except.ok "digest2") (Except.error "mongo down")).resp.TransactionDigest = "digest2" :=
  ⟨(service_success_despite_persistence_failure.1 _ 7 "digest1" "mongo down"
      (by decide) (by decide) (by decide) (by decide) (by decide)).1,
   (service_success_despite_persistence_failure.2 _ 7 "digest2" "mongo down"
      (by decide) (by decide) (by decide)).2.1⟩

/-- C6: when the chain operation fails, both service operations return a
failure response, perform no storage write, and surface the chain error; and
in general a record is handed to storage only when the chain result was a
success carrying exactly the digest stored in the record. -/
theorem no_record_without_successful_chain_tx :
    (∀ (req : StakeRequest) (now : Int) (e : GoErr) (ins : Except String Unit),
      req.RequesterCoinID ≠ "" → req.AccepterCoinID ≠ "" → req.StakeAmount ≠ 0 →
      req.RequesterAddress ≠ "" → req.AccepterAddress ≠ "" →
      (stakeGame req now (Except.error e) ins).resp.Success = false ∧
      (stakeGame req now (Except.error e) ins).insertAttempt = none ∧
      (stakeGame req now (Except.error e) ins).errReturned = some (ServiceErr.chain e)) ∧
    (∀ (req : PayWinnerRequest) (now : Int) (e : GoErr) (ins : Except String Unit),
      req.RequesterAddress ≠ "" → req.AccepterAddress ≠ "" → req.StakeAmount ≠ 0 →
      (payWinner req now (Except.error e) ins).resp.Success = false ∧
      (payWinner req now (Except.error e) ins).insertAttempt = none ∧
      (payWinner req now (Except.error e) ins).errReturned = some (ServiceErr.chain e)) ∧
    (∀ (req : StakeRequest) (now : Int) (chainResult : Except GoErr String)
        (ins : Except String Unit) (r : Stake),
      (stakeGame req now chainResult ins).insertAttempt = some r →
      chainResult = Except.ok r.TransactionHash) ∧
    (∀ (req : PayWinnerRequest) (now : Int) (chainResult : Except GoErr String)
        (ins : Except String Unit) (r : PayWinnerRecord),
      (payWinner req now chainResult ins).insertAttempt = some r →
      chainResult = Except.ok r.TransactionHash) := by
  refine ⟨?_, ?_, ?_, ?_⟩
  · intro req now e ins h1 h2 h3 h4 h5
    rw [stakeGame_err_unfold req now e ins (not_or.mpr ⟨h1, not_or.mpr ⟨h2, h3⟩⟩)
      (not_or.mpr ⟨h4, h5⟩)]
    exact ⟨rfl, rfl, rfl⟩
  · intro req now e ins h1 h2 h3
    rw [payWinner_err_unfold req now e ins (not_or.mpr ⟨h1, not_or.mpr ⟨h2, h3⟩⟩)]
    exact ⟨rfl, rfl, rfl⟩
  · intro req now chainResult ins r h
    by_cases h1 : req.RequesterCoinID = "" ∨ req.AccepterCoinID = "" ∨ req.StakeAmount = 0
    · rw [stakeGame.eq_def, if_pos h1] at h
      exact absurd h (by simp)
    · by_cases h2 : req.RequesterAddress = "" ∨ req.AccepterAddress = ""
      · rw [stakeGame.eq_def, if_neg h1, if_pos h2] at h
        exact absurd h (by simp)
      · cases chainResult with
        | error e =>
          rw [stakeGame_err_unfold req now e ins h1 h2] at h
          exact absurd h (by simp)
        | ok d =>
          rw [stakeGame_ok_unfold req now d ins h1 h2] at h
          simp only [Option.some.injEq] at h
          rw [← h]
  · intro req now chainResult ins r h
    by_cases h1 : req.RequesterAddress = "" ∨ req.AccepterAddress = "" ∨ req.StakeAmount = 0
    · rw [payWinner.eq_def, if_pos h1] at h
      exact absurd h (by simp)
    · cases chainResult with
      | error e =>
        rw [payWinner_err_unfold req now e ins h1] at h
        exact absurd h (by simp)
      | ok d =>
        rw [payWinner_ok_unfold req now d ins h1] at h
        simp only [Option.some.injEq] at h
        rw [← h]

/-- C6 witness at a concrete failing chain call. -/
theorem no_record_without_successful_chain_tx_witness :
    (stakeGame { RequesterCoinID := "0xc1", AccepterCoinID := "0xc2",
                 RequesterAddress := "0xra", AccepterAddress := "0xaa", StakeAmount := 100 }
       7 (Except.error GoErr.noGasCoinAvailable) (Except.ok ())).insertAttempt = none ∧
    (payWinner { RequesterAddress := "0xra", AccepterAddress := "0xaa",
                 RequesterScore := 10, AccepterScore := 5, StakeAmount := 100 }
       7 (Except.error GoErr.noSuiCoinsForGas) (Except.ok ())).resp.Success = false :=
  ⟨(no_record_without_successful_chain_tx.1 _ 7 GoErr.noGasCoinAvailable (Except.ok ())
      (by decide) (by decide) (by decide) (by decide) (by decide)).2.1,
   (no_record_without_successful_chain_tx.2.1 _ 7 GoErr.noSuiCoinsForGas (Except.ok ())
      (by decide) (by decide) (by decide)).1⟩

/-- C2 (amended): the empty-address / zero-amount validation for PayWinner
lives in the Game Service layer, not in the chain client: every service-level
`PayWinner` call with an empty requester address, empty accepter address, or
zero stake amount fails with the local validation error and never invokes the
chain client nor storage.  (`SuiClient.ExternalPayWinner` itself performs no
such validation — see the accompanying counterexample.) -/
theorem payWinner_validation_at_service_layer
    (req : PayWinnerRequest) (now : Int) (chainResult : Except GoErr String)
    (insertResult : Except String Unit)
    (hinv : req.RequesterAddress = "" ∨ req.AccepterAddress = "" ∨ req.StakeAmount = 0) :
    (payWinner req now chainResult insertResult).resp.Success = false ∧
    (payWinner req now chainResult insertResult).errReturned =
      some ServiceErr.invalidPayWinnerRequest ∧
    (payWinner req now chainResult insertResult).chainCalled = false ∧
    (payWinner req now chainResult insertResult).insertAttempt = none := by
  rw [payWinner.eq_def, if_pos hinv]
  exact ⟨rfl, rfl, rfl, rfl⟩

/-- C2 witness at a concrete invalid request. -/
theorem payWinner_validation_at_service_layer_witness :
    (payWinner { RequesterAddress := "", AccepterAddress := "0xaa",
                 RequesterScore := 10, AccepterScore := 5, StakeAmount := 100 }
       7 (Except.ok "digest") (Except.ok ())).chainCalled = false :=
  (payWinner_validation_at_service_layer _ 7 (Except.ok "digest") (Except.ok ())
    (Or.inl rfl)).2.2.1

/-- C2 counterexample: the chain-client operation `ExternalPayWinner` itself,
called with empty addresses and a zero stake amount, raises no local
validation error — it consumes the coin-query, build and execute responses
and returns the digest. -/
theorem externalPayWinner_no_local_validation_cex :
    externalPayWinner cexClient "" "" 0 0 0 (Except.ok [coinC3]) cexBuild cexRunPlain =
      GoOutcome.ok "d2" := rfl

/-- C1 (amended): an effects status object whose inner status is not
`"success"` makes `executeTransaction` — and hence the Stake operation —
fail with the transaction-failed error and no digest; but
`ExternalPayWinner` performs no effects-status inspection and returns the
digest even when the decoded effects carry such a non-success status. -/
theorem effects_status_checked_for_stake_not_payWinner :
    (∀ (c : SuiClientM) (requesterCoinID accepterCoinID : String) (amount : Nat)
        (coinsResp : Except RpcFailure (List RawCoin)) (m : MoveCallRequest)
        (build : MoveCallRequest → Except RpcFailure String)
        (run : String → String → Except RpcFailure TransactionBlockResponse)
        (tb sg : String) (tx : TransactionBlockResponse) (st : List (String × GoVal)),
      externalStakeCall c requesterCoinID accepterCoinID amount coinsResp = GoOutcome.ok m →
      build m = Except.ok tb → c.sign tb = Except.ok sg → run tb sg = Except.ok tx →
      assocLookup tx.effects "status" = some (GoVal.obj st) →
      assocLookup st "status" ≠ some (GoVal.str "success") →
      externalStake c requesterCoinID accepterCoinID amount coinsResp build run =
        GoOutcome.err (GoErr.transactionFailed st)) ∧
    (∀ (c : SuiClientM) (requesterAddress accepterAddress : String)
        (requesterScore accepterScore stakeAmount : Nat)
        (c0 : RawCoin) (coins : List RawCoin) (gasId : String)
        (build : MoveCallRequest → Except RpcFailure String)
        (run : String → String → Except RpcFailure TransactionBlockResponse)
        (tb : String) (tx : TransactionBlockResponse),
      idStr c0 = some gasId →
      (∀ req, build req = Except.ok tb) →
      (∀ b s, run b s = Except.ok tx) →
      (∃ sg, c.sign tb = Except.ok sg) →
      externalPayWinner c requesterAddress accepterAddress requesterScore accepterScore
          stakeAmount (Except.ok (c0 :: coins)) build run = GoOutcome.ok tx.digest) := by
  constructor
  · intro c rq ac amount coinsResp m build run tb sg tx st hcall hb hs hr hst hne
    rw [externalStake, hcall]
    dsimp only
    rw [executeTransaction, hb]
    dsimp only
    rw [hs]
    dsimp only
    rw [hr]
    dsimp only
    have hcheck : checkEffectsStatus tx.effects = some st := by
      rw [checkEffectsStatus, hst]
      dsimp only
      cases hinner : assocLookup st "status" with
      | none => rfl
      | some v =>
        cases v with
        | str s =>
          split
          next heq =>
            exfalso
            injection heq with h1
            injection h1 with h2
            rw [h2] at hinner
            exact hne hinner
          next => rfl
        | obj fields => rfl
        | other => rfl
    rw [hcheck]
  · intro c ra aa rs asc amt c0 coins gasId build run tb tx hid hb hr hsig
    obtain ⟨sg, hs⟩ := hsig
    rw [externalPayWinner]
    dsimp only
    rw [hid]
    dsimp only
    rw [hb]
    dsimp only
    rw [hs]
    dsimp only
    rw [hr]

/-- C1 witness: a concrete non-success effects status makes the Stake path
fail with `TransactionFailed`, while `ExternalPayWinner` on the same decoded
result still returns the digest. -/
theorem effects_status_checked_for_stake_not_payWinner_witness :
    externalStake cexClient "0xc1" "0xc2" 100 (Except.ok [coinC3]) cexBuild cexRunFail =
      GoOutcome.err (GoErr.transactionFailed [("status", GoVal.str "failure")]) ∧
    externalPayWinner cexClient "0xr" "0xa" 10 5 100 (Except.ok [coinC3]) cexBuild cexRunFail =
      GoOutcome.ok "d1" := by
  constructor
  · refine effects_status_checked_for_stake_not_payWinner.1 cexClient "0xc1" "0xc2" 100
      (Except.ok [coinC3]) stakeDescriptor100 cexBuild cexRunFail "dHhCeXRlcw==" "AJsig"
      txFailD1 [("status", GoVal.str "failure")] rfl rfl rfl rfl rfl ?_
    intro hcon
    have hcon2 : some (GoVal.str "failure") = some (GoVal.str "success") := hcon
    injection hcon2 with h1
    injection h1 with h2
    exact absurd h2 (by decide)
  · exact effects_status_checked_for_stake_not_payWinner.2 cexClient "0xr" "0xa" 10 5 100
      coinC3 [] "0xc3" cexBuild cexRunFail "dHhCeXRlcw==" txFailD1 rfl (fun _ => rfl)
      (fun _ _ => rfl) ⟨"AJsig", rfl⟩

/-- C1 counterexample: `ExternalPayWinner` returns digest `d1` even though
the decoded result's effects status is the object `{status: "failure"}` —
the operation does not fail with `TransactionFailed`. -/
theorem payWinner_returns_digest_on_failure_status_cex :
    externalPayWinner cexClient "0xreq" "0xacc" 10 5 100 (Except.ok [coinC3])
        cexBuild cexRunFail = GoOutcome.ok "d1" ∧
    assocLookup txFailD1.effects "status" =
      some (GoVal.obj [("status", GoVal.str "failure")]) :=
  ⟨rfl, rfl⟩

/-- C9: when the effects status is `success` (or the status field is absent),
the absence of the expected `package::module::eventName` event among the
returned events does not make `executeTransaction` fail: it still returns the
digest, with the event-found flag false (the Go code then only prints a
warning). -/
theorem missing_event_warns_but_succeeds (cfg : Config) (m : MoveCallRequest)
    (expectedEventSuffix : String)
    (build : MoveCallRequest → Except RpcFailure String)
    (sign : String → Except String String)
    (run : String → String → Except RpcFailure TransactionBlockResponse)
    (tb sg : String) (tx : TransactionBlockResponse)
    (hb : build m = Except.ok tb) (hs : sign tb = Except.ok sg)
    (hr : run tb sg = Except.ok tx)
    (hstatus : assocLookup tx.effects "status" = none ∨
      ∃ st, assocLookup tx.effects "status" = some (GoVal.obj st) ∧
        assocLookup st "status" = some (GoVal.str "success"))
    (hnoevent : ∀ ev ∈ tx.events,
      ev.type ≠ cfg.PackageID ++ "::" ++ cfg.ModuleName ++ "::" ++ expectedEventSuffix) :
    executeTransaction cfg m expectedEventSuffix build sign run =
      Except.ok { digest := tx.digest, eventFound := false } := by
  rw [executeTransaction, hb]
  dsimp only
  rw [hs]
  dsimp only
  rw [hr]
  dsimp only
  have hcheck : checkEffectsStatus tx.effects = none := by
    rcases hstatus with h | ⟨st, h1, h2⟩
    · rw [checkEffectsStatus, h]
    · rw [checkEffectsStatus, h1]
      dsimp only
      rw [h2]
      rfl
  rw [hcheck]
  dsimp only
  have hany : tx.events.any
      (fun ev => ev.type == cfg.PackageID ++ "::" ++ cfg.ModuleName ++ "::" ++ expectedEventSuffix) =
      false := by
    simp only [List.any_eq_false, beq_iff_eq]
    exact hnoevent
  rw [hany]

/-- C9 witness: a successful execution with no events still yields the
digest, with the event flag false. -/
theorem missing_event_warns_but_succeeds_witness :
    executeTransaction cexClient.config stakeDescriptor100 "ExternalGameStaked"
        cexBuild cexClient.sign cexRunSuccess =
      Except.ok { digest := "d3", eventFound := false } :=
  missing_event_warns_but_succeeds cexClient.config stakeDescriptor100 "ExternalGameStaked"
    cexBuild cexClient.sign cexRunSuccess "dHhCeXRlcw==" "AJsig" txSuccessNoEvents
    rfl rfl rfl
    (Or.inr ⟨[("status", GoVal.str "success")], rfl, rfl⟩)
    (by intro ev hev; simp [txSuccessNoEvents] at hev)

/-- C4: for every valid Stake input (non-empty coin ids, positive amount in
the uint64 range), the move call `ExternalStake` constructs targets
`external_stake` and its positional argument list is exactly
`[poolId, requesterCoinId, accepterCoinId, amountString]`, where the amount
string is the decimal rendering of the amount and parses back to it. -/
theorem externalStake_call_descriptor (c : SuiClientM)
    (requesterCoinID accepterCoinID : String) (amount : Nat)
    (coinsResp : Except RpcFailure (List RawCoin)) (m : MoveCallRequest)
    (hreq : requesterCoinID ≠ "") (hacc : accepterCoinID ≠ "")
    (hpos : 0 < amount) (h64 : amount < 2 ^ 64)
    (hm : externalStakeCall c requesterCoinID accepterCoinID amount coinsResp =
      GoOutcome.ok m) :
    m.Function = "external_stake" ∧
    m.Arguments = [c.config.PoolID, requesterCoinID, accepterCoinID, natToDecimal amount] ∧
    parseUint64 (natToDecimal amount) = some amount := by
  rw [externalStakeCall.eq_def, if_neg (not_or.mpr ⟨hreq, hacc⟩), if_neg (by omega)] at hm
  cases coinsResp with
  | error e => simp at hm
  | ok coins =>
    dsimp only at hm
    cases hsel : selectGasCoin coins requesterCoinID accepterCoinID with
    | ok gasCoin =>
      rw [hsel] at hm
      dsimp only at hm
      injection hm with h
      rw [← h]
      exact ⟨rfl, rfl, parseUint64_natToDecimal amount h64⟩
    | err e =>
      rw [hsel] at hm
      simp at hm
    | panicked =>
      rw [hsel] at hm
      simp at hm

/-- C4 witness at the concrete Scenario A inputs. -/
theorem externalStake_call_descriptor_witness :
    ∃ m, externalStakeCall cexClient "0xc1" "0xc2" 100 (Except.ok [coinC3]) =
        GoOutcome.ok m ∧
      m.Function = "external_stake" ∧
      m.Arguments = ["0xpool", "0xc1", "0xc2", natToDecimal 100] ∧
      parseUint64 (natToDecimal 100) = some 100 := by
  refine ⟨stakeDescriptor100, rfl, ?_⟩
  exact externalStake_call_descriptor cexClient "0xc1" "0xc2" 100 (Except.ok [coinC3])
    stakeDescriptor100 (by decide) (by decide) (by decide) (by decide) rfl

/-- C7: on a fetched coin list (well-formed: every coin id present as a
non-empty string), gas-coin selection returns the first coin in list order
whose id differs from both excluded ids, and fails with the
`NoGasCoinAvailable` error exactly when every coin is excluded; in
particular it fails on the list `[0xc1, 0xc2]` with exclusions
`{0xc1, 0xc2}`. -/
theorem selectGasCoin_first_non_excluded (coins : List RawCoin) (ex1 ex2 : String)
    (hwf : ∀ c ∈ coins, ∃ s, idStr c = some s ∧ s ≠ "") :
    (∀ c, coins.find? (notExcluded ex1 ex2) = some c →
        selectGasCoin coins ex1 ex2 = GoOutcome.ok ((idStr c).getD "")) ∧
    ((∀ c ∈ coins, notExcluded ex1 ex2 c = false) ↔
        selectGasCoin coins ex1 ex2 = GoOutcome.err GoErr.noGasCoinAvailable) ∧
    selectGasCoin [coinC1, coinC2] "0xc1" "0xc2" = GoOutcome.err GoErr.noGasCoinAvailable := by
  have hspec := selectGasCoin_spec coins ex1 ex2 hwf
  refine ⟨?_, ⟨?_, ?_⟩, rfl⟩
  · intro c hfind
    rw [hspec, hfind]
  · intro hall
    have hnone : coins.find? (notExcluded ex1 ex2) = none :=
      List.find?_eq_none.mpr (fun c hc => by simp [hall c hc])
    rw [hspec, hnone]
  · intro hres c hc
    by_contra hne
    have hsome : (coins.find? (notExcluded ex1 ex2)).isSome := by
      rw [List.find?_isSome]
      exact ⟨c, hc, by simpa using hne⟩
    obtain ⟨c0, hc0⟩ := Option.isSome_iff_exists.mp hsome
    rw [hspec, hc0] at hres
    simp at hres

/-- C7 witness: with coins `[0xc1, 0xc2, 0xc3]` and exclusions
`{0xc1, 0xc2}`, selection returns `0xc3`. -/
theorem selectGasCoin_first_non_excluded_witness :
    selectGasCoin [coinC1, coinC2, coinC3] "0xc1" "0xc2" = GoOutcome.ok "0xc3" :=
  (selectGasCoin_first_non_excluded [coinC1, coinC2, coinC3] "0xc1" "0xc2"
    (by
      intro c hc
      fin_cases hc
      · exact ⟨"0xc1", rfl, by decide⟩
      · exact ⟨"0xc2", rfl, by decide⟩
      · exact ⟨"0xc3", rfl, by decide⟩)).1 coinC3 rfl

/-- With a requested count of 0, the scan loop of `GetSufficientCoins` does
not stop before collecting: the break is tested only after appending, so the
loop returns the accumulated ids plus the FIRST qualifying coin's id when one
exists. -/
theorem sufficientLoop_count_zero (requiredAmount : Nat) :
    ∀ (coins : List RawCoin) (acc : List String),
      (∀ c ∈ coins, wfCoin c) →
      sufficientLoop coins requiredAmount 0 acc =
        GoOutcome.ok (acc ++ (qualIds requiredAmount coins).take 1) := by
  intro coins
  induction coins with
  | nil =>
    intro acc _
    simp [sufficientLoop, qualIds]
  | cons c rest ih =>
    intro acc hwf
    have hrest : ∀ c0 ∈ rest, wfCoin c0 := fun c0 hc0 => hwf c0 (by simp [hc0])
    obtain ⟨⟨bs, hbs⟩, ⟨istr, his⟩⟩ := hwf c (by simp)
    rw [sufficientLoop, hbs]
    dsimp only
    cases hp : parseUint64 bs with
    | none =>
      dsimp only
      have hq : qualifies requiredAmount c = false := by
        simp [qualifies, parsedBalance, hbs, hp]
      rw [ih acc hrest]
      simp [qualIds, List.filter_cons, hq]
    | some b =>
      dsimp only
      by_cases hge : requiredAmount ≤ b
      · rw [if_pos hge, his]
        dsimp only
        have hq : qualifies requiredAmount c = true := by
          simp [qualifies, parsedBalance, hbs, hp, hge]
        have hqi : qualIds requiredAmount (c :: rest) = istr :: qualIds requiredAmount rest := by
          simp [qualIds, List.filter_cons, hq, his]
        rw [if_pos (Nat.zero_le (acc ++ [istr]).length)]
        rw [hqi, List.take_succ_cons, List.take_zero]
      · rw [if_neg hge]
        have hq : qualifies requiredAmount c = false := by
          simp [qualifies, parsedBalance, hbs, hp]
          omega
        rw [ih acc hrest]
        simp [qualIds, List.filter_cons, hq]

/-- `GetSufficientCoins`' selection at count 0 always succeeds, returning the
first qualifying coin's id when one exists (never the empty selection the
requested count would suggest). -/
theorem selectSufficient_count_zero (coins : List RawCoin) (requiredAmount : Nat)
    (hwf : ∀ c ∈ coins, wfCoin c) :
    selectSufficient coins requiredAmount 0 =
      GoOutcome.ok ((qualIds requiredAmount coins).take 1) := by
  rw [selectSufficient, sufficientLoop_count_zero requiredAmount coins [] hwf]
  dsimp only
  rw [if_neg (Nat.not_lt_zero _)]
  rw [List.nil_append]

/-- C8 (amended): on a fetched coin list of well-formed coins, for every
positive requested count, payment-coin selection collects, in list order,
exactly the ids of the coins whose individual balance meets the required
amount, truncated at `count`, and fails with `InsufficientCoins` reporting
the needed count and the number found when fewer than `count` coins qualify;
for a requested count of 0, however, the loop does not stop at zero coins —
the break is tested only after appending, so the call succeeds with the first
qualifying coin's id (one coin, not zero) when any coin qualifies. -/
theorem selectSufficient_characterization (coins : List RawCoin)
    (requiredAmount count : Nat)
    (hwf : ∀ c ∈ coins, wfCoin c) :
    (0 < count →
      selectSufficient coins requiredAmount count =
        if count ≤ (coins.filter (qualifies requiredAmount)).length then
          GoOutcome.ok
            (((coins.filter (qualifies requiredAmount)).take count).map
              (fun c => (idStr c).getD ""))
        else
          GoOutcome.err (GoErr.insufficientCoins count requiredAmount
            (coins.filter (qualifies requiredAmount)).length)) ∧
    (count = 0 →
      selectSufficient coins requiredAmount count =
        GoOutcome.ok
          (((coins.filter (qualifies requiredAmount)).take 1).map
            (fun c => (idStr c).getD ""))) := by
  constructor
  · intro hcount
    rw [selectSufficient_spec coins requiredAmount count hwf hcount]
    simp only [qualIds, List.length_map, List.map_take]
  · intro hzero
    rw [hzero, selectSufficient_count_zero coins requiredAmount hwf]
    simp only [qualIds, List.map_take]

/-- C8 witness: of three coins with balances 500, 300, 200 and threshold 250,
requesting one coin selects the first qualifying coin `0xc1`; requesting
zero coins also returns that coin instead of an empty selection. -/
theorem selectSufficient_characterization_witness :
    selectSufficient [coinC1, coinC2, coinC3] 250 1 = GoOutcome.ok ["0xc1"] ∧
    selectSufficient [coinC1, coinC2, coinC3] 250 0 = GoOutcome.ok ["0xc1"] := by
  have hwf : ∀ c ∈ [coinC1, coinC2, coinC3], wfCoin c := by
    intro c hc
    fin_cases hc
    · exact ⟨⟨"500", rfl⟩, ⟨"0xc1", rfl⟩⟩
    · exact ⟨⟨"300", rfl⟩, ⟨"0xc2", rfl⟩⟩
    · exact ⟨⟨"200", rfl⟩, ⟨"0xc3", rfl⟩⟩
  constructor
  · rw [(selectSufficient_characterization [coinC1, coinC2, coinC3] 250 1 hwf).1 (by decide)]
    rfl
  · rw [(selectSufficient_characterization [coinC1, coinC2, coinC3] 250 0 hwf).2 rfl]
    rfl

/-- C8 counterexample: with one qualifying coin and a requested count of 0,
the selection does NOT stop as soon as 0 coins are collected: it returns one
coin id, not the empty list the requested count prescribes. -/
theorem count_zero_collects_one_coin_cex :
    selectSufficient [coinC1] 1 0 = GoOutcome.ok ["0xc1"] ∧
    selectSufficient [coinC1] 1 0 ≠ GoOutcome.ok [] := by
  constructor
  · rfl
  · intro h
    have h2 : GoOutcome.ok ["0xc1"] = GoOutcome.ok ([] : List String) := h
    injection h2 with h3
    cases h3

/-- C3 (amended): the selectors consult only the single unpaginated
`GetCoins` page of at most 10 coins: `GetAllCoins` does return the full
paginated wallet, but `GetSufficientCoins` fetches one page of 10 with a nil
cursor, and selection succeeds exactly when enough qualifying coins sit
within those first 10 — a qualifying coin beyond position 10 is invisible. -/
theorem coin_selection_page_semantics :
    (∀ wallet : List RawCoin, getAllCoins wallet = wallet) ∧
    (∀ wallet : List RawCoin, getCoinsFirstPage wallet = wallet.take 10) ∧
    (∀ (wallet : List RawCoin) (requiredAmount count : Nat),
      (∀ c ∈ wallet.take 10, wfCoin c) → 0 < count →
      ((∃ r, getSufficientCoins wallet requiredAmount count = GoOutcome.ok r) ↔
        count ≤ ((wallet.take 10).filter (qualifies requiredAmount)).length)) := by
  refine ⟨getAllCoins_eq, ?_, ?_⟩
  · intro wallet
    simp [getCoinsFirstPage, suixGetCoinsPage]
  · intro wallet requiredAmount count hwf hcount
    have hpage : getCoinsFirstPage wallet = wallet.take 10 := by
      simp [getCoinsFirstPage, suixGetCoinsPage]
    rw [getSufficientCoins, hpage, selectSufficient_spec _ _ _ hwf hcount]
    have hlen : (qualIds requiredAmount (wallet.take 10)).length =
        ((wallet.take 10).filter (qualifies requiredAmount)).length := by
      simp [qualIds]
    by_cases hq : count ≤ (qualIds requiredAmount (wallet.take 10)).length
    · rw [if_pos hq]
      constructor
      · intro _
        rw [← hlen]
        exact hq
      · intro _
        exact ⟨_, rfl⟩
    · rw [if_neg hq]
      constructor
      · rintro ⟨r, hr⟩
        exact absurd hr (by simp)
      · intro hcon
        exfalso
        apply hq
        rw [hlen]
        exact hcon

/-- C3 witness: a qualifying coin within the first page is found. -/
theorem coin_selection_page_semantics_witness :
    1 ≤ (([coinC1].take 10).filter (qualifies 100)).length :=
  (coin_selection_page_semantics.2.2 [coinC1] 100 1
      (by
        intro c hc
        fin_cases hc
        exact ⟨⟨"500", rfl⟩, ⟨"0xc1", rfl⟩⟩)
      (by decide)).mp
    ⟨["0xc1"], rfl⟩

/-- C3 counterexample: in a wallet of eleven coins in which only the
eleventh satisfies the 100-unit constraint, `GetSufficientCoins` fails with
`InsufficientCoins` (found 0) even though a qualifying spendable coin exists
— the selector never sees past the first page of 10. -/
theorem coin_selection_first_page_only_cex :
    getSufficientCoins elevenCoinWallet 100 1 =
      GoOutcome.err (GoErr.insufficientCoins 1 100 0) ∧
    elevenCoinWallet.any (qualifies 100) = true :=
  ⟨rfl, rfl⟩

/-- C10 (amended): a coin whose balance is present as a string that fails to
parse as a decimal uint64 is silently skipped — the selection result equals
selection over only the coins with parseable balances; but (see the
counterexample) a coin whose balance field is missing or non-string is NOT
skipped: the type assertion panics. -/
theorem unparseable_balance_skipped (coins : List RawCoin)
    (requiredAmount count : Nat)
    (hbal : ∀ c ∈ coins, ∃ s, balStr c = some s) :
    selectSufficient coins requiredAmount count =
      selectSufficient (coins.filter (fun c => (parsedBalance c).isSome))
        requiredAmount count := by
  rw [selectSufficient, selectSufficient,
    sufficientLoop_skips_unparseable requiredAmount count coins hbal []]

/-- C10 witness: a coin with the unparseable balance string `"abc"` is
skipped and selection proceeds over the remaining coin. -/
theorem unparseable_balance_skipped_witness :
    selectSufficient [textBalanceCoin, coinC1] 400 1 =
      selectSufficient [coinC1] 400 1 :=
  unparseable_balance_skipped [textBalanceCoin, coinC1] 400 1
    (by
      intro c hc
      fin_cases hc
      · exact ⟨"abc", rfl⟩
      · exact ⟨"500", rfl⟩)

/-- C10 counterexample: a coin whose `balance` key is missing makes the
selection call panic on the failed type assertion, rather than being treated
as non-qualifying — selection over only the well-formed coins would instead
return the `InsufficientCoins` error. -/
theorem malformed_balance_panics_cex :
    selectSufficient [noBalanceCoin] 1 1 = GoOutcome.panicked ∧
    selectSufficient [] 1 1 = GoOutcome.err (GoErr.insufficientCoins 1 1 0) ∧
    selectSufficient [noBalanceCoin] 1 1 ≠ selectSufficient [] 1 1 :=
  ⟨rfl, rfl, fun h => nomatch h⟩
